import Mathlib

/-!
Verification of the streaming chat core of the learning-chatbot frontend:
the SSE frame parser and stream transport (`streamChat` in the API client)
and the chat session state machine (the `useChat` hook).

The embedding is shallow: React state updates (`setMessages`, `setLoading`,
`setError`, `abortRef`) become explicit state passing over a `ChatState`
record; the callbacks closed over by one `streamChat` invocation
(`assistantId`, the mutable `sources` buffer) become a `StreamCtx` record;
the byte-level parse loop becomes a fold over decoded text fragments
represented as `List Char`.
-/

namespace LearningChatbot

/-! ## Data model (frontend/src/types/index.ts) -/

/-- Role of a chat message: the TS union `'user' | 'assistant'`. -/
inductive Role where
  | user
  | assistant
deriving Repr, DecidableEq

/-- TS `ChatSource { content: string; document_id: string; score?: number }`.
The optional `score` is a JSON number; it is carried opaquely as its decimal
lexeme because no operation of the core ever computes with it. -/
structure ChatSource where
  content : String
  document_id : String
  score : Option String
deriving Repr, DecidableEq

/-- TS `SSEEvent = SSESourcesEvent | SSEChunkEvent | SSEDoneEvent`:
`{type:'sources', data: ChatSource[]} | {type:'chunk', data: string}
| {type:'done'}`. -/
inductive SSEEvent where
  | sources (data : List ChatSource)
  | chunk (data : String)
  | done
deriving Repr, DecidableEq

/-- TS `LocalMessage` in `useChat`:
`{ id, role, content, sources?, isStreaming? }`.
The optional boolean `isStreaming` is absent-or-false in all code paths,
so it is embedded as a plain `Bool` (absent ↦ `false`). -/
structure LocalMessage where
  id : String
  role : Role
  content : String
  sources : Option (List ChatSource)
  isStreaming : Bool
deriving Repr, DecidableEq

/-- TS `ChatMessage` as returned by the history endpoint (the fields
`useChat.loadHistory` actually reads: `id`, `role`, `content`). -/
structure ChatMessage where
  id : String
  role : Role
  content : String
deriving Repr, DecidableEq

/-- The React state owned by one `useChat` instance:
`messages`, `loading`, `error`, and the `abortRef` holding the cancel
handle returned by `streamChat` (modelled by the tag of the stream it
belongs to; `none` = `abortRef.current === null`). -/
structure ChatState where
  messages : List LocalMessage
  loading : Bool
  error : Option String
  abortRef : Option Nat
deriving Repr, DecidableEq

/-- The closure state of one streaming `sendMessage` call: the fresh
`assistantId` and the mutable `let sources` buffer that `onEvent`
captures. -/
structure StreamCtx where
  assistantId : String
  sources : Option (List ChatSource)
deriving Repr, DecidableEq

/-! ## Chat session state machine (`useChat`, src/unnamed/part_004) -/

/-- JS `String.prototype.trim()`: strip leading and trailing whitespace,
modelled over the underlying character list (executable, unlike
`String.trim` which recurses on byte positions). -/
def trimStr (s : String) : String :=
  ⟨((s.data.dropWhile Char.isWhitespace).reverse.dropWhile
      Char.isWhitespace).reverse⟩

/-- `useChat.sendMessage(content)` on the streaming path (`useStreaming`
defaults to `true`; the non-streaming fallback is a plain request/response
wrapper outside the claims).  Source:

```ts
if (!kbId || !content.trim()) return;
setError(null); setLoading(true);
const userMsg = { id: `user-${Date.now()}`, role: 'user', content: content.trim() };
setMessages((prev) => [...prev, userMsg]);
const assistantId = `assistant-${Date.now()}`;
setMessages((prev) => [...prev, { id: assistantId, role: 'assistant', content: '', isStreaming: true }]);
let sources; abortRef.current = api.streamChat(...);
```

`now` stands for `Date.now()`; the registered cancel handle is tagged with
it.  Returns the new state and, when a stream was started, the closure
context of its callbacks.  Note the guard checks only `kbId` and the
trimmed text — `loading` is not consulted. -/
def sendMessage (kbId : Option String) (s : ChatState) (content : String)
    (now : Nat) : ChatState × Option StreamCtx :=
  match kbId with
  | none => (s, none)
  | some _ =>
    if trimStr content = "" then (s, none)
    else
      let userMsg : LocalMessage :=
        { id := "user-" ++ toString now
          role := .user
          content := trimStr content
          sources := none
          isStreaming := false }
      let assistantId := "assistant-" ++ toString now
      let assistantMsg : LocalMessage :=
        { id := assistantId
          role := .assistant
          content := ""
          sources := none
          isStreaming := true }
      ({ messages := s.messages ++ [userMsg, assistantMsg]
         loading := true
         error := none
         abortRef := some now },
       some { assistantId := assistantId, sources := none })

/-- The `onEvent` callback `sendMessage` passes to `streamChat`:

```ts
if (event.type === 'sources') { sources = event.data; }
else if (event.type === 'chunk') {
  setMessages((prev) => prev.map((m) =>
    m.id === assistantId ? { ...m, content: m.content + event.data } : m));
} else if (event.type === 'done') {
  setMessages((prev) => prev.map((m) =>
    m.id === assistantId ? { ...m, isStreaming: false, sources } : m));
  setLoading(false);
}
```
-/
def onStreamEvent (ctx : StreamCtx) (s : ChatState) (e : SSEEvent) :
    StreamCtx × ChatState :=
  match e with
  | .sources data => ({ ctx with sources := some data }, s)
  | .chunk data =>
      (ctx, { s with messages := s.messages.map fun m =>
          if m.id = ctx.assistantId then { m with content := m.content ++ data }
          else m })
  | .done =>
      (ctx, { s with
          messages := s.messages.map fun m =>
            if m.id = ctx.assistantId then
              { m with isStreaming := false, sources := ctx.sources }
            else m
          loading := false })

/-- Deliver a sequence of parsed frames to the session, in arrival order. -/
def deliverEvents (ctx : StreamCtx) (s : ChatState) (es : List SSEEvent) :
    StreamCtx × ChatState :=
  es.foldl (fun p e => onStreamEvent p.1 p.2 e) (ctx, s)

/-- The `onError` callback `sendMessage` passes to `streamChat`:
`(err) => { setError(err.message); setLoading(false); }`.
It touches neither `messages` nor `abortRef`. -/
def onStreamError (s : ChatState) (msg : String) : ChatState :=
  { s with error := some msg, loading := false }

/-- `useChat.clearHistory()`:

```ts
if (!kbId) return;
try { await api.clearChatHistory(kbId); setMessages([]); }
catch (e) { setError(e instanceof Error ? e.message : 'Failed to clear history'); }
```

`backendOk` is whether the `DELETE /api/chat/:kb/history` call succeeded;
`errMsg` is the message of the exception thrown when it did not. -/
def clearHistory (kbId : Option String) (backendOk : Bool) (errMsg : String)
    (s : ChatState) : ChatState :=
  match kbId with
  | none => s
  | some _ =>
    if backendOk then { s with messages := [] }
    else { s with error := some errMsg }

/-- `useChat.stopStreaming()`:

```ts
if (abortRef.current) {
  abortRef.current(); abortRef.current = null; setLoading(false);
  setMessages((prev) => prev.map((m) => (m.isStreaming ? { ...m, isStreaming: false } : m)));
}
```
-/
def stopStreaming (s : ChatState) : ChatState :=
  match s.abortRef with
  | none => s
  | some _ =>
    { s with
        abortRef := none
        loading := false
        messages := s.messages.map fun m =>
          if m.isStreaming then { m with isStreaming := false } else m }

/-- The history-loading effect that runs when the knowledge base changes:

```ts
const history = await api.getChatHistory(kbId);
setMessages(history.map((m) => ({ id: m.id, role: m.role, content: m.content })));
```

It replaces `messages` wholesale and touches no other field. -/
def loadHistory (history : List ChatMessage) (s : ChatState) : ChatState :=
  { s with messages := history.map fun m =>
      { id := m.id
        role := m.role
        content := m.content
        sources := none
        isStreaming := false } }

/-! ## Derived notions and helper lemmas for the session machine -/

/-- Concatenation of the texts of the `chunk` frames of a sequence, in
arrival order (what the `content: m.content + event.data` updates
accumulate). -/
def chunkConcat : List SSEEvent → String
  | [] => ""
  | SSEEvent.chunk t :: es => t ++ chunkConcat es
  | _ :: es => chunkConcat es

/-- The value of the mutable `sources` closure buffer after a frame
sequence: the payload of the last `sources` frame, else the initial
value. -/
def bufferedSources (acc : Option (List ChatSource)) :
    List SSEEvent → Option (List ChatSource)
  | [] => acc
  | SSEEvent.sources d :: es => bufferedSources (some d) es
  | _ :: es => bufferedSources acc es

theorem str_append_empty (s : String) : s ++ "" = s := by
  cases s with
  | mk data => show String.mk (data ++ []) = String.mk data; rw [List.append_nil]

theorem deliverEvents_nil (ctx : StreamCtx) (s : ChatState) :
    deliverEvents ctx s [] = (ctx, s) := rfl

theorem deliverEvents_cons (ctx : StreamCtx) (s : ChatState) (e : SSEEvent)
    (es : List SSEEvent) :
    deliverEvents ctx s (e :: es) =
      deliverEvents (onStreamEvent ctx s e).1 (onStreamEvent ctx s e).2 es := rfl

theorem deliverEvents_append (ctx : StreamCtx) (s : ChatState)
    (es1 es2 : List SSEEvent) :
    deliverEvents ctx s (es1 ++ es2) =
      deliverEvents (deliverEvents ctx s es1).1 (deliverEvents ctx s es1).2 es2 := by
  simp [deliverEvents, List.foldl_append]

/-- A guarded per-id update leaves a list of messages alone when no id
matches. -/
theorem map_guard_eq_self {l : List LocalMessage} {aid : String}
    (g : LocalMessage → LocalMessage) (h : ∀ m ∈ l, m.id ≠ aid) :
    (l.map fun m => if m.id = aid then g m else m) = l := by
  induction l with
  | nil => rfl
  | cons x xs ih =>
    have hx : x.id ≠ aid := h x (List.mem_cons_self x xs)
    simp only [List.map_cons, if_neg hx]
    rw [ih (fun m hm => h m (List.mem_cons_of_mem x hm))]

/-- Core run lemma: delivering a terminal-free frame sequence to a session
whose last message is the live assistant message (and whose other messages
have different ids) appends exactly the chunk concatenation to that
message's content, updates the closure's sources buffer, and changes
nothing else. -/
theorem deliverEvents_live (es : List SSEEvent) :
    ∀ (src : Option (List ChatSource)) (s : ChatState)
      (pre : List LocalMessage) (a : LocalMessage) (aid : String),
      (∀ e ∈ es, e ≠ SSEEvent.done) →
      s.messages = pre ++ [a] → a.id = aid → (∀ m ∈ pre, m.id ≠ aid) →
      deliverEvents ⟨aid, src⟩ s es =
        (⟨aid, bufferedSources src es⟩,
         { s with messages :=
             pre ++ [{ a with content := a.content ++ chunkConcat es }] }) := by
  induction es with
  | nil =>
    intro src s pre a aid _ hmsg _ _
    rw [deliverEvents_nil, chunkConcat, bufferedSources, str_append_empty, ← hmsg]
  | cons e es ih =>
    intro src s pre a aid hnd hmsg haid hpre
    match e with
    | SSEEvent.done => exact absurd rfl (hnd SSEEvent.done (List.mem_cons_self _ _))
    | SSEEvent.sources d =>
      rw [deliverEvents_cons]
      show deliverEvents ⟨aid, some d⟩ s es = _
      rw [ih (some d) s pre a aid
        (fun x hx => hnd x (List.mem_cons_of_mem _ hx)) hmsg haid hpre]
      rfl
    | SSEEvent.chunk t =>
      rw [deliverEvents_cons]
      have hmap : (s.messages.map fun m =>
          if m.id = aid then { m with content := m.content ++ t } else m) =
          pre ++ [{ a with content := a.content ++ t }] := by
        rw [hmsg, List.map_append,
          map_guard_eq_self (fun m => { m with content := m.content ++ t }) hpre]
        simp [if_pos haid]
      show deliverEvents ⟨aid, src⟩
          { s with messages := s.messages.map fun m =>
              if m.id = aid then { m with content := m.content ++ t } else m } es = _
      rw [ih src _ pre { a with content := a.content ++ t } aid
        (fun x hx => hnd x (List.mem_cons_of_mem _ hx)) hmap haid hpre]
      show (_, ({ s with messages := _ } : ChatState)) = _
      rw [chunkConcat, ← String.append_assoc]
      rfl

/-- Effect of the `done` frame on a session whose last message is the live
assistant message: it is frozen (`isStreaming := false`), the buffered
sources are attached, and `loading` is cleared. -/
theorem onStreamEvent_done (src : Option (List ChatSource)) (s : ChatState)
    (pre : List LocalMessage) (a : LocalMessage) (aid : String)
    (hmsg : s.messages = pre ++ [a]) (haid : a.id = aid)
    (hpre : ∀ m ∈ pre, m.id ≠ aid) :
    onStreamEvent ⟨aid, src⟩ s SSEEvent.done =
      (⟨aid, src⟩,
       { s with
          messages := pre ++ [{ a with isStreaming := false, sources := src }]
          loading := false }) := by
  show (_, ({ s with messages := s.messages.map _, loading := false } : ChatState)) = _
  rw [hmsg, List.map_append,
    map_guard_eq_self (fun m => { m with isStreaming := false, sources := src }) hpre]
  simp [if_pos haid]

/-- Delivering any frame sequence through a stale closure whose assistant
id matches no current message leaves the message sequence unchanged. -/
theorem deliverEvents_stale (es : List SSEEvent) :
    ∀ (ctx : StreamCtx) (s : ChatState),
      (∀ m ∈ s.messages, m.id ≠ ctx.assistantId) →
      (deliverEvents ctx s es).2.messages = s.messages := by
  induction es with
  | nil => intro ctx s _; rfl
  | cons e es ih =>
    intro ctx s h
    rw [deliverEvents_cons]
    match e with
    | SSEEvent.sources d => exact ih { ctx with sources := some d } s h
    | SSEEvent.chunk t =>
      show (deliverEvents ctx { s with messages := s.messages.map _ } es).2.messages = _
      rw [map_guard_eq_self (fun m => { m with content := m.content ++ t }) h]
      exact ih ctx { s with messages := s.messages } h
    | SSEEvent.done =>
      show (deliverEvents ctx
        { s with messages := s.messages.map _, loading := false } es).2.messages = _
      rw [map_guard_eq_self
        (fun m => { m with isStreaming := false, sources := ctx.sources }) h]
      exact ih ctx { s with messages := s.messages, loading := false } h

theorem str_empty_append (s : String) : "" ++ s = s := by
  cases s with
  | mk data => rfl

/-- The fresh ids minted by one `sendMessage` call differ. -/
theorem userId_ne_assistantId (n : Nat) :
    ("user-" ++ toString n : String) ≠ "assistant-" ++ toString n := by
  intro h
  have hlen := congrArg String.length h
  rw [String.length_append, String.length_append] at hlen
  have h5 : ("user-" : String).length = 5 := rfl
  have h10 : ("assistant-" : String).length = 10 := rfl
  rw [h5, h10] at hlen
  omega

/-- Closed form of a streaming `sendMessage` with nonempty trimmed text:
the appended user/assistant pair and the registered stream context. -/
theorem sendMessage_stream (kb : String) (s : ChatState) (text : String)
    (now : Nat) (htrim : trimStr text ≠ "") :
    sendMessage (some kb) s text now =
      ({ messages := s.messages ++
           [⟨"user-" ++ toString now, Role.user, trimStr text, none, false⟩,
            ⟨"assistant-" ++ toString now, Role.assistant, "", none, true⟩]
         loading := true
         error := none
         abortRef := some now },
       some ⟨"assistant-" ++ toString now, none⟩) := by
  unfold sendMessage
  rw [if_neg htrim]

theorem freeze_eq_self {m : LocalMessage} (h : m.isStreaming = false) :
    ({ m with isStreaming := false } : LocalMessage) = m := by
  cases m
  simp only at h
  rw [h]

theorem map_freeze_guard (l : List LocalMessage) :
    (l.map fun m => if m.isStreaming then { m with isStreaming := false } else m) =
      l.map (fun m => { m with isStreaming := false }) := by
  induction l with
  | nil => rfl
  | cons x xs ih =>
    simp only [List.map_cons, ih]
    congr 1
    cases hx : x.isStreaming
    · rw [if_neg (by simp [hx]), freeze_eq_self hx]
    · rw [if_pos (by simp [hx])]

/-! ## Claims about the chat session state machine -/

/-- C1 (counterexample): with a stream in flight (`loading = true`,
`abortRef` registered), `sendMessage` is not a no-op — the guard in the
code checks only `kbId` and the trimmed text, so two messages are still
appended. -/
theorem send_while_inflight_not_noop :
    (⟨[], true, none, some 0⟩ : ChatState).loading = true ∧
    (⟨[], true, none, some 0⟩ : ChatState).abortRef ≠ none ∧
    (sendMessage (some "kb") ⟨[], true, none, some 0⟩ "hi" 1).1.messages.length = 2 ∧
    (⟨[], true, none, some 0⟩ : ChatState).messages.length = 0 := by
  refine ⟨rfl, by decide, ?_, rfl⟩
  rw [sendMessage_stream "kb" _ "hi" 1 (by decide)]
  rfl

/-- C1 (amended): invoking `sendMessage` while a stream is already in
flight is not rejected; whenever the trimmed text is nonempty it appends a
user and an assistant message, growing the sequence by two. -/
theorem send_while_inflight_appends (kb : String) (s : ChatState)
    (text : String) (now : Nat) (hload : s.loading = true)
    (htrim : trimStr text ≠ "") :
    (sendMessage (some kb) s text now).1.messages.length =
      s.messages.length + 2 := by
  rw [sendMessage_stream kb s text now htrim]
  simp

theorem send_while_inflight_appends_witness :
    (sendMessage (some "kb") ⟨[], true, none, some 0⟩ "hi" 1).1.messages.length =
      (⟨[], true, none, some 0⟩ : ChatState).messages.length + 2 :=
  send_while_inflight_appends "kb" ⟨[], true, none, some 0⟩ "hi" 1 rfl (by decide)

/-- C2 (counterexample): after `send("hi")` and a partial chunk `"par"`,
the transport-error callback records the error and clears `loading` but
leaves the assistant message with `isStreaming = true` — the claim's
"sets streaming = false" does not hold. -/
theorem stream_error_leaves_streaming_flag :
    onStreamError
      (deliverEvents ⟨"assistant-1", none⟩
        (sendMessage (some "kb") ⟨[], false, none, none⟩ "hi" 1).1
        [SSEEvent.chunk "par"]).2 "boom" =
    ⟨[⟨"user-1", Role.user, "hi", none, false⟩,
      ⟨"assistant-1", Role.assistant, "par", none, true⟩],
     false, some "boom", some 1⟩ := by decide

/-- C2 (amended): on a transport error after a terminal-free frame
sequence, the session records the error string, clears the in-flight
`loading` flag, and preserves the accumulated partial content — but the
assistant message's `streaming` flag is left unchanged (still `true`), and
the cancel handle is not cleared. -/
theorem stream_error_preserves_partial (kb : String) (s0 : ChatState)
    (text : String) (now : Nat) (es : List SSEEvent) (msg : String)
    (htrim : trimStr text ≠ "")
    (hfresh : ∀ m ∈ s0.messages, m.id ≠ "assistant-" ++ toString now)
    (hnd : ∀ e ∈ es, e ≠ SSEEvent.done) :
    onStreamError
      (deliverEvents ⟨"assistant-" ++ toString now, none⟩
        (sendMessage (some kb) s0 text now).1 es).2 msg =
    { messages := s0.messages ++
        [⟨"user-" ++ toString now, Role.user, trimStr text, none, false⟩,
         ⟨"assistant-" ++ toString now, Role.assistant, chunkConcat es,
          none, true⟩]
      loading := false
      error := some msg
      abortRef := some now } := by
  rw [sendMessage_stream kb s0 text now htrim]
  rw [deliverEvents_live es none _
    (s0.messages ++ [⟨"user-" ++ toString now, Role.user, trimStr text, none, false⟩])
    ⟨"assistant-" ++ toString now, Role.assistant, "", none, true⟩
    ("assistant-" ++ toString now) hnd (by simp) rfl ?hpre]
  case hpre =>
    intro m hm
    rcases List.mem_append.1 hm with h | h
    · exact hfresh m h
    · rw [List.mem_singleton.1 h]
      exact userId_ne_assistantId now
  rw [show (("" : String) ++ chunkConcat es) = chunkConcat es from
    str_empty_append _]
  simp [onStreamError]

theorem stream_error_preserves_partial_witness :
    onStreamError
      (deliverEvents ⟨"assistant-1", none⟩
        (sendMessage (some "kb") ⟨[], false, none, none⟩ "hi" 1).1
        [SSEEvent.chunk "par"]).2 "boom" =
    { messages := ([] : List LocalMessage) ++
        [⟨"user-1", Role.user, "hi", none, false⟩,
         ⟨"assistant-1", Role.assistant, chunkConcat [SSEEvent.chunk "par"],
          none, true⟩]
      loading := false
      error := some "boom"
      abortRef := some 1 } :=
  stream_error_preserves_partial "kb" ⟨[], false, none, none⟩ "hi" 1
    [SSEEvent.chunk "par"] "boom" (by decide) (by decide) (by decide)

/-- C3 (counterexample): after `send(" hi ")`, one chunk and `done`, the
final state stores the trimmed text `"hi"` as the user content (not the
argument `" hi "`), and the cancel handle is still registered — the `done`
branch never resets `abortRef`. -/
theorem done_does_not_clear_abortRef :
    (deliverEvents ⟨"assistant-1", none⟩
        (sendMessage (some "kb") ⟨[], false, none, none⟩ " hi " 1).1
        [SSEEvent.chunk "X", SSEEvent.done]).2.abortRef = some 1 ∧
    ((deliverEvents ⟨"assistant-1", none⟩
        (sendMessage (some "kb") ⟨[], false, none, none⟩ " hi " 1).1
        [SSEEvent.chunk "X", SSEEvent.done]).2.messages.map
      LocalMessage.content) = ["hi", "X"] := by
  constructor <;> decide

/-- C3 (amended): a `send` whose stream delivers a terminal-free frame
sequence and then `done` ends with the user message carrying the trimmed
text, followed by the assistant message whose content is the concatenation
of the chunk texts in arrival order, `streaming = false`, the buffered
sources attached, and `loading` cleared; the cancel handle, however, is
not cleared — `abortRef` still holds the stream's handle. -/
theorem send_chunks_done_final_state (kb : String) (s0 : ChatState)
    (text : String) (now : Nat) (es : List SSEEvent)
    (htrim : trimStr text ≠ "")
    (hfresh : ∀ m ∈ s0.messages, m.id ≠ "assistant-" ++ toString now)
    (hnd : ∀ e ∈ es, e ≠ SSEEvent.done) :
    (sendMessage (some kb) s0 text now).2 =
      some ⟨"assistant-" ++ toString now, none⟩ ∧
    (deliverEvents ⟨"assistant-" ++ toString now, none⟩
        (sendMessage (some kb) s0 text now).1 (es ++ [SSEEvent.done])).2 =
      { messages := s0.messages ++
          [⟨"user-" ++ toString now, Role.user, trimStr text, none, false⟩,
           ⟨"assistant-" ++ toString now, Role.assistant, chunkConcat es,
            bufferedSources none es, false⟩]
        loading := false
        error := none
        abortRef := some now } := by
  have hpre : ∀ m ∈ s0.messages ++
      [(⟨"user-" ++ toString now, Role.user, trimStr text, none, false⟩ :
        LocalMessage)], m.id ≠ "assistant-" ++ toString now := by
    intro m hm
    rcases List.mem_append.1 hm with h | h
    · exact hfresh m h
    · rw [List.mem_singleton.1 h]
      exact userId_ne_assistantId now
  refine ⟨by rw [sendMessage_stream kb s0 text now htrim], ?_⟩
  rw [sendMessage_stream kb s0 text now htrim, deliverEvents_append,
    deliverEvents_live es none _
      (s0.messages ++
        [⟨"user-" ++ toString now, Role.user, trimStr text, none, false⟩])
      ⟨"assistant-" ++ toString now, Role.assistant, "", none, true⟩
      ("assistant-" ++ toString now) hnd (by simp) rfl hpre,
    deliverEvents_cons, deliverEvents_nil]
  rw [show (("" : String) ++ chunkConcat es) = chunkConcat es from
    str_empty_append _]
  rw [onStreamEvent_done (bufferedSources none es) _
    (s0.messages ++
      [⟨"user-" ++ toString now, Role.user, trimStr text, none, false⟩])
    ⟨"assistant-" ++ toString now, Role.assistant, chunkConcat es, none, true⟩
    ("assistant-" ++ toString now) (by simp) rfl hpre]
  simp

theorem send_chunks_done_final_state_witness :
    (sendMessage (some "kb") ⟨[], false, none, none⟩ "What is X?" 1).2 =
      some ⟨"assistant-1", none⟩ ∧
    (deliverEvents ⟨"assistant-1", none⟩
        (sendMessage (some "kb") ⟨[], false, none, none⟩ "What is X?" 1).1
        ([SSEEvent.chunk "X ", SSEEvent.chunk "is ", SSEEvent.chunk "Y"] ++
          [SSEEvent.done])).2 =
      { messages := ([] : List LocalMessage) ++
          [⟨"user-1", Role.user, trimStr "What is X?", none, false⟩,
           ⟨"assistant-1", Role.assistant,
            chunkConcat [SSEEvent.chunk "X ", SSEEvent.chunk "is ",
              SSEEvent.chunk "Y"],
            bufferedSources none [SSEEvent.chunk "X ", SSEEvent.chunk "is ",
              SSEEvent.chunk "Y"], false⟩]
        loading := false
        error := none
        abortRef := some 1 } :=
  send_chunks_done_final_state "kb" ⟨[], false, none, none⟩ "What is X?" 1
    [SSEEvent.chunk "X ", SSEEvent.chunk "is ", SSEEvent.chunk "Y"]
    (by decide) (by decide) (by decide)

/-- C4 (counterexample): the code has no generation token — stale frames
are suppressed only by message-id matching.  If the reloaded history
happens to contain a message whose id equals the superseded stream's
assistant id, a stale chunk mutates the new session's messages. -/
theorem stale_stream_id_collision :
    (deliverEvents ⟨"assistant-5", none⟩
        (loadHistory [⟨"assistant-5", Role.assistant, "old"⟩]
          ⟨[], false, none, none⟩)
        [SSEEvent.chunk "x"]).2.messages ≠
      (loadHistory [⟨"assistant-5", Role.assistant, "old"⟩]
        ⟨[], false, none, none⟩).messages := by
  decide

/-- C4 (amended): after a knowledge-base switch reloads the history,
delivering the superseded stream's frames leaves every message of the new
session unchanged, provided no reloaded message carries the stale stream's
assistant id (the code's suppression works by id matching, not by a
generation counter). -/
theorem stale_stream_id_guard (ctx : StreamCtx) (s : ChatState)
    (history : List ChatMessage) (es : List SSEEvent)
    (h : ∀ m ∈ history, m.id ≠ ctx.assistantId) :
    (deliverEvents ctx (loadHistory history s) es).2.messages =
      (loadHistory history s).messages := by
  apply deliverEvents_stale
  intro m hm
  simp only [loadHistory, List.mem_map] at hm
  obtain ⟨mm, hmm, hconv⟩ := hm
  rw [← hconv]
  exact h mm hmm

theorem stale_stream_id_guard_witness :
    (deliverEvents ⟨"assistant-7", none⟩
        (loadHistory [⟨"m1", Role.assistant, "old"⟩] ⟨[], false, none, none⟩)
        [SSEEvent.chunk "x", SSEEvent.done]).2.messages =
      (loadHistory [⟨"m1", Role.assistant, "old"⟩]
        ⟨[], false, none, none⟩).messages :=
  stale_stream_id_guard ⟨"assistant-7", none⟩ ⟨[], false, none, none⟩
    [⟨"m1", Role.assistant, "old"⟩] [SSEEvent.chunk "x", SSEEvent.done]
    (by decide)

/-- C6: with a stream in flight, `stopStreaming` marks every message no
longer streaming, freezes all contents as received, clears the in-flight
state (`loading` and the cancel handle), and records no error (the error
field is untouched; the transport's `AbortError` guard keeps cancellation
out of the error callback). -/
theorem stop_freezes_messages (s : ChatState) (n : Nat)
    (h : s.abortRef = some n) :
    (stopStreaming s).messages =
      s.messages.map (fun m => { m with isStreaming := false }) ∧
    (∀ m ∈ (stopStreaming s).messages, m.isStreaming = false) ∧
    ((stopStreaming s).messages.map LocalMessage.content) =
      s.messages.map LocalMessage.content ∧
    (stopStreaming s).loading = false ∧
    (stopStreaming s).abortRef = none ∧
    (stopStreaming s).error = s.error := by
  have hstop : stopStreaming s =
      { s with
          abortRef := none
          loading := false
          messages := s.messages.map fun m =>
            if m.isStreaming then { m with isStreaming := false } else m } := by
    unfold stopStreaming
    rw [h]
  rw [hstop, map_freeze_guard]
  refine ⟨rfl, ?_, ?_, rfl, rfl, rfl⟩
  · intro m hm
    simp only [List.mem_map] at hm
    obtain ⟨mm, _, hconv⟩ := hm
    rw [← hconv]
  · rw [List.map_map]
    rfl

theorem stop_freezes_messages_witness :
    (stopStreaming ⟨[⟨"a1", Role.assistant, "Partial", none, true⟩],
        true, none, some 3⟩).messages =
      ([⟨"a1", Role.assistant, "Partial", none, true⟩] :
        List LocalMessage).map (fun m => { m with isStreaming := false }) ∧
    (∀ m ∈ (stopStreaming ⟨[⟨"a1", Role.assistant, "Partial", none, true⟩],
        true, none, some 3⟩).messages, m.isStreaming = false) ∧
    ((stopStreaming ⟨[⟨"a1", Role.assistant, "Partial", none, true⟩],
        true, none, some 3⟩).messages.map LocalMessage.content) =
      ([⟨"a1", Role.assistant, "Partial", none, true⟩] :
        List LocalMessage).map LocalMessage.content ∧
    (stopStreaming ⟨[⟨"a1", Role.assistant, "Partial", none, true⟩],
        true, none, some 3⟩).loading = false ∧
    (stopStreaming ⟨[⟨"a1", Role.assistant, "Partial", none, true⟩],
        true, none, some 3⟩).abortRef = none ∧
    (stopStreaming ⟨[⟨"a1", Role.assistant, "Partial", none, true⟩],
        true, none, some 3⟩).error =
      (⟨[⟨"a1", Role.assistant, "Partial", none, true⟩],
        true, none, some 3⟩ : ChatState).error :=
  stop_freezes_messages
    ⟨[⟨"a1", Role.assistant, "Partial", none, true⟩], true, none, some 3⟩
    3 rfl

/-- C9: `clearHistory` empties the local message list only when the
backend deletion succeeded; on failure the list is unchanged and the
error string is recorded on the session. -/
theorem clearHistory_success_and_failure (kb : String) (errMsg : String)
    (s : ChatState) :
    (clearHistory (some kb) true errMsg s).messages = [] ∧
    (clearHistory (some kb) true errMsg s).error = s.error ∧
    (clearHistory (some kb) false errMsg s).messages = s.messages ∧
    (clearHistory (some kb) false errMsg s).error = some errMsg ∧
    (clearHistory (some kb) false errMsg s).loading = s.loading ∧
    (clearHistory (some kb) false errMsg s).abortRef = s.abortRef :=
  ⟨rfl, rfl, rfl, rfl, rfl, rfl⟩

/-! ## Stream transport (`streamChat`, src/unnamed/part_000)

One `streamChat` call creates an `AbortController`, issues the fetch, and
returns `() => controller.abort()`.  The observable life of that single
stream instance is captured by a status plus the callback invocations so
far.  The status encodes where the promise chain of the call stands:
`streaming` while the read loop is live, `completed` after `done` broke
the loop, `errored` after the catch clause ran `onError`, `cancelled`
after an abort tore the loop down. -/

/-- Terminal and live states of one `streamChat` invocation. -/
inductive StreamStatus where
  | streaming
  | completed
  | errored
  | cancelled
deriving Repr, DecidableEq

/-- Observable trace of one `streamChat` invocation: its status, the
events passed to `onEvent` so far, and the errors passed to `onError` so
far. -/
structure TransportRun where
  status : StreamStatus
  frames : List SSEEvent
  errors : List String
deriving Repr, DecidableEq

/-- The returned handle `() => controller.abort()`.  While the read loop
is live, `abort()` rejects the pending `reader.read()` with an
`AbortError`; the catch clause `if (error.name !== 'AbortError' && onError)`
swallows it, so the run ends with no callback.  In a terminal state the
promise chain has already settled and `AbortController.abort` is
idempotent, so a (further) call has no observable effect. -/
def cancelStream (r : TransportRun) : TransportRun :=
  match r.status with
  | .streaming => { r with status := .cancelled }
  | _ => r

/-- `onEvent` fires only from inside the live read loop (`while (true)`
over `reader.read()`); once the run is terminal no further frame is
delivered. -/
def deliverFrame (r : TransportRun) (f : SSEEvent) : TransportRun :=
  match r.status with
  | .streaming => { r with frames := r.frames ++ [f] }
  | _ => r

/-- The catch clause: a non-abort failure of a live run invokes `onError`
once and ends the run; a settled promise chain cannot fail again. -/
def reportError (r : TransportRun) (e : String) : TransportRun :=
  match r.status with
  | .streaming => { r with status := .errored, errors := r.errors ++ [e] }
  | _ => r

/-- C7: calling `cancel()` twice equals calling it once; calling it after
completion or error changes nothing; and after a cancel no further
`onFrame` or `onError` invocation is recorded. -/
theorem cancel_idempotent_no_callbacks (r : TransportRun) (f : SSEEvent)
    (e : String) :
    cancelStream (cancelStream r) = cancelStream r ∧
    cancelStream { r with status := StreamStatus.completed } =
      { r with status := StreamStatus.completed } ∧
    cancelStream { r with status := StreamStatus.errored } =
      { r with status := StreamStatus.errored } ∧
    (deliverFrame (cancelStream r) f).frames = (cancelStream r).frames ∧
    (reportError (cancelStream r) e).errors = (cancelStream r).errors := by
  obtain ⟨st, fr, er⟩ := r
  cases st <;> exact ⟨rfl, rfl, rfl, rfl, rfl⟩

/-! ## Frame parser (the read loop of `streamChat`)

```ts
buffer += decoder.decode(value, { stream: true });
const lines = buffer.split('\n');
buffer = lines.pop() || '';
for (const line of lines) {
  if (line.startsWith('data: ')) {
    try { const event = JSON.parse(line.slice(6)) as SSEEvent; onEvent(event); }
    catch \x7b /* Ignore parse errors */ \x7d
  }
}
```

Decoded text is modelled as `List Char`: the stateful `TextDecoder`
guarantees fragments arrive as whole characters, so the character list is
the right granularity for everything after decoding. -/

/-- Prepend characters onto the first piece of a piece list (used to
state how splitting distributes over appending). -/
def consFirst {α : Type} (b : List α) : List (List α) → List (List α)
  | [] => [b]
  | y :: ys => (b ++ y) :: ys

/-- JS `buffer.split('\n')`: the pieces of a character list between
newline characters.  Always nonempty; `""` splits to `[""]` exactly as in
JS. -/
def splitNl : List Char → List (List Char)
  | [] => [[]]
  | c :: cs =>
    if c = '\n' then [] :: splitNl cs else consFirst [c] (splitNl cs)

/-- One iteration of the read loop on one decoded fragment: append to the
buffer, split on newlines, emit all pieces but the last, keep the last as
the new buffer.  `lines.pop() || ''` is `getLastD _ []`: `pop` of the
never-empty split result, with `||` only turning an empty string into
itself. -/
def feedFragment (st : List (List Char) × List Char) (frag : List Char) :
    List (List Char) × List Char :=
  (st.1 ++ (splitNl (st.2 ++ frag)).dropLast,
   (splitNl (st.2 ++ frag)).getLastD [])

/-- The whole read loop: all complete lines produced for a fragment
sequence, and the final residual buffer (discarded when the body ends). -/
def runFragments (frags : List (List Char)) : List (List Char) × List Char :=
  frags.foldl feedFragment ([], [])

/-- JS `line.startsWith(pat)` over character lists (first argument the
line, second the pattern). -/
def startsWith : List Char → List Char → Bool
  | _, [] => true
  | [], _ :: _ => false
  | c :: cs, p :: ps => c == p && startsWith cs ps

/-- The literal `'data: '` the loop tests for. -/
def dataHeader : List Char := "data: ".data

/-- JSON values as produced by `JSON.parse`.  Object fields keep source
order; numbers are carried as their lexeme, since nothing in the core ever
computes with a frame's numeric payload (only `sources[].relevance_score`
is numeric) and JS float semantics are out of the embedding. -/
inductive Json where
  | null
  | bool (b : Bool)
  | num (lexeme : List Char)
  | str (s : List Char)
  | arr (elems : List Json)
  | obj (fields : List (List Char × Json))
deriving Repr

/-- Insignificant JSON whitespace. -/
def isWsChar (c : Char) : Bool :=
  c == ' ' || c == '\t' || c == '\n' || c == '\r'

def skipWs : List Char → List Char
  | [] => []
  | c :: cs => if isWsChar c then skipWs cs else c :: cs

def hexVal (c : Char) : Option Nat :=
  if '0' ≤ c ∧ c ≤ '9' then some (c.toNat - '0'.toNat)
  else if 'a' ≤ c ∧ c ≤ 'f' then some (c.toNat - 'a'.toNat + 10)
  else if 'A' ≤ c ∧ c ≤ 'F' then some (c.toNat - 'A'.toNat + 10)
  else none

/-- Single-character JSON string escapes. -/
def escChar : Char → Option Char
  | '"' => some '"'
  | '\\' => some '\\'
  | '/' => some '/'
  | 'b' => some (Char.ofNat 8)
  | 'f' => some (Char.ofNat 12)
  | 'n' => some '\n'
  | 'r' => some '\r'
  | 't' => some '\t'
  | _ => none

/-- Body of a JSON string after the opening quote, up to and including the
closing quote.  Unescaped control characters are rejected as in
`JSON.parse`.  UTF-16 surrogate-pair escapes are out of the embedding (a
lone `\uXXXX` is decoded as a scalar; no claim touches astral planes). -/
def parseStringBody : List Char → Option (List Char × List Char)
  | [] => none
  | '"' :: rest => some ([], rest)
  | '\\' :: 'u' :: a :: b :: c :: d :: rest => do
      let ha ← hexVal a
      let hb ← hexVal b
      let hc ← hexVal c
      let hd ← hexVal d
      let (s, r) ← parseStringBody rest
      pure (Char.ofNat (((ha * 16 + hb) * 16 + hc) * 16 + hd) :: s, r)
  | '\\' :: e :: rest => do
      let c ← escChar e
      let (s, r) ← parseStringBody rest
      pure (c :: s, r)
  | c :: rest =>
      if c.toNat < 32 then none
      else do
        let (s, r) ← parseStringBody rest
        pure (c :: s, r)

/-- Longest digit run at the head of the input. -/
def digitRun : List Char → List Char × List Char
  | [] => ([], [])
  | c :: cs =>
      if c.isDigit then
        let (ds, r) := digitRun cs
        (c :: ds, r)
      else ([], c :: cs)

/-- JSON integer part: `0` or a nonzero digit followed by digits. -/
def parseIntPart : List Char → Option (List Char × List Char)
  | [] => none
  | '0' :: cs => some (['0'], cs)
  | c :: cs =>
      if c.isDigit then
        let (ds, r) := digitRun cs
        some (c :: ds, r)
      else none

/-- Optional JSON fraction part. -/
def parseFrac : List Char → Option (List Char × List Char)
  | '.' :: cs =>
      match digitRun cs with
      | ([], _) => none
      | (ds, r) => some ('.' :: ds, r)
  | cs => some ([], cs)

/-- Optional JSON exponent part. -/
def parseExp : List Char → Option (List Char × List Char)
  | [] => some ([], [])
  | e :: cs =>
      if e == 'e' || e == 'E' then
        match cs with
        | [] => none
        | s :: cs' =>
            if s == '+' || s == '-' then
              match digitRun cs' with
              | ([], _) => none
              | (ds, r) => some (e :: s :: ds, r)
            else
              match digitRun cs with
              | ([], _) => none
              | (ds, r) => some (e :: ds, r)
      else some ([], e :: cs)

/-- A JSON number, returned as its lexeme. -/
def parseNumber (cs : List Char) : Option (List Char × List Char) :=
  match cs with
  | '-' :: cs' => do
      let (ip, r1) ← parseIntPart cs'
      let (fp, r2) ← parseFrac r1
      let (ep, r3) ← parseExp r2
      pure ('-' :: (ip ++ fp ++ ep), r3)
  | _ => do
      let (ip, r1) ← parseIntPart cs
      let (fp, r2) ← parseFrac r1
      let (ep, r3) ← parseExp r2
      pure (ip ++ fp ++ ep, r3)

mutual

/-- A JSON value with leading whitespace allowed.  The fuel strictly
decreases on every nested parse; `length + 1` at the top level is always
enough, since each nested entry is preceded by at least one consumed
character. -/
def parseValue : Nat → List Char → Option (Json × List Char)
  | 0, _ => none
  | fuel + 1, cs =>
    match skipWs cs with
    | 'n' :: 'u' :: 'l' :: 'l' :: rest => some (Json.null, rest)
    | 't' :: 'r' :: 'u' :: 'e' :: rest => some (Json.bool true, rest)
    | 'f' :: 'a' :: 'l' :: 's' :: 'e' :: rest => some (Json.bool false, rest)
    | '"' :: rest =>
        match parseStringBody rest with
        | some (s, r) => some (Json.str s, r)
        | none => none
    | '[' :: rest =>
        match parseElems fuel true rest with
        | some (es, r) => some (Json.arr es, r)
        | none => none
    | '{' :: rest =>
        match parseFields fuel true rest with
        | some (fs, r) => some (Json.obj fs, r)
        | none => none
    | rest =>
        match parseNumber rest with
        | some (lx, r) => some (Json.num lx, r)
        | none => none

/-- Elements of a JSON array after `[` (or after a `,`); `allowEnd` is
true only directly after `[`, so `[]` parses but `[1,]` does not. -/
def parseElems : Nat → Bool → List Char → Option (List Json × List Char)
  | 0, _, _ => none
  | fuel + 1, allowEnd, cs =>
    match skipWs cs, allowEnd with
    | ']' :: rest, true => some ([], rest)
    | cs', _ =>
      match parseValue fuel cs' with
      | none => none
      | some (v, r) =>
        match skipWs r with
        | ',' :: r2 =>
            match parseElems fuel false r2 with
            | none => none
            | some (vs, r3) => some (v :: vs, r3)
        | ']' :: r2 => some ([v], r2)
        | _ => none

/-- Fields of a JSON object after `\x7b` (or after a `,`). -/
def parseFields : Nat → Bool → List Char →
    Option (List (List Char × Json) × List Char)
  | 0, _, _ => none
  | fuel + 1, allowEnd, cs =>
    match skipWs cs, allowEnd with
    | '}' :: rest, true => some ([], rest)
    | cs', _ =>
      match cs' with
      | '"' :: r0 =>
        match parseStringBody r0 with
        | none => none
        | some (key, r1) =>
          match skipWs r1 with
          | ':' :: r2 =>
            match parseValue fuel r2 with
            | none => none
            | some (v, r3) =>
              match skipWs r3 with
              | ',' :: r4 =>
                  match parseFields fuel false r4 with
                  | none => none
                  | some (fs, r5) => some ((key, v) :: fs, r5)
              | '}' :: r4 => some ([(key, v)], r4)
              | _ => none
          | _ => none
      | _ => none

end

/-- JS `JSON.parse` on a frame payload: exactly one JSON value with
insignificant surrounding whitespace and no trailing input. -/
def jsonParse (cs : List Char) : Option Json :=
  match parseValue (cs.length + 1) cs with
  | some (v, rest) => if (skipWs rest).isEmpty then some v else none
  | none => none

/-- One complete line of the event stream:
`if (line.startsWith('data: ')) try onEvent(JSON.parse(line.slice(6))) catch ignore`.
`none` both for lines without the data header (keep-alives, ignored) and
for payloads `JSON.parse` rejects (the empty catch block: malformed frames
are dropped and never abort the stream or reach `onError`). -/
def decodeLine (line : List Char) : Option Json :=
  if startsWith line dataHeader then jsonParse (line.drop 6) else none

/-- Frames emitted for a sequence of complete lines, in order. -/
def linesToFrames (ls : List (List Char)) : List Json :=
  ls.filterMap decodeLine

/-- All frames `streamChat` passes to `onEvent` over the life of a stream
whose decoded fragments are `frags`, in order. -/
def streamFrames (frags : List (List Char)) : List Json :=
  linesToFrames (runFragments frags).1

/-! ## Splitting lemmas -/

theorem consFirst_ne_nil {α : Type} (b : List α) (l : List (List α)) :
    consFirst b l ≠ [] := by
  cases l <;> simp [consFirst]

theorem consFirst_nil_of_ne_nil {α : Type} {l : List (List α)}
    (h : l ≠ []) : consFirst [] l = l := by
  obtain ⟨y, ys, rfl⟩ := List.exists_cons_of_ne_nil h
  simp [consFirst]

theorem splitNl_ne_nil (cs : List Char) : splitNl cs ≠ [] := by
  cases cs with
  | nil => simp [splitNl]
  | cons c cs =>
    by_cases h : c = '\n' <;> simp [splitNl, h, consFirst_ne_nil]

theorem getLastD_irrel {α : Type} {l : List α} (h : l ≠ []) (d d' : α) :
    l.getLastD d = l.getLastD d' := by
  obtain ⟨y, ys, rfl⟩ := List.exists_cons_of_ne_nil h
  rfl

theorem getLastD_cons_ne_nil {α : Type} (x : α) {l : List α} (h : l ≠ [])
    (d : α) : (x :: l).getLastD d = l.getLastD d := by
  obtain ⟨y, ys, rfl⟩ := List.exists_cons_of_ne_nil h
  rfl

theorem dropLast_cons_ne_nil {α : Type} (x : α) {l : List α} (h : l ≠ []) :
    (x :: l).dropLast = x :: l.dropLast := by
  obtain ⟨y, ys, rfl⟩ := List.exists_cons_of_ne_nil h
  rfl

theorem getLastD_append_ne_nil {α : Type} (xs : List α) {ys : List α}
    (h : ys ≠ []) (d : α) : (xs ++ ys).getLastD d = ys.getLastD d := by
  induction xs with
  | nil => rfl
  | cons x xs ih =>
    rw [List.cons_append,
      getLastD_cons_ne_nil x (by simp [h]) d, ih]

/-- Splitting a character list with no newline yields the single piece. -/
theorem splitNl_no_newline {cs : List Char} (h : '\n' ∉ cs) :
    splitNl cs = [cs] := by
  induction cs with
  | nil => rfl
  | cons c cs ih =>
    have hc : ¬(c = '\n') := fun hc => h (hc ▸ List.mem_cons_self c cs)
    rw [splitNl, if_neg hc, ih (fun hm => h (List.mem_cons_of_mem c hm))]
    rfl

/-- The residual piece (the last piece of a split) never contains a
newline. -/
theorem no_newline_in_last (cs : List Char) :
    '\n' ∉ (splitNl cs).getLastD [] := by
  induction cs with
  | nil => simp [splitNl]
  | cons c cs ih =>
    by_cases hc : c = '\n'
    · rw [splitNl, if_pos hc,
        getLastD_cons_ne_nil [] (splitNl_ne_nil cs) []]
      exact ih
    · rw [splitNl, if_neg hc]
      obtain ⟨p, ps, hps⟩ := List.exists_cons_of_ne_nil (splitNl_ne_nil cs)
      rw [hps]
      cases ps with
      | nil =>
        simp only [consFirst, List.getLastD]
        intro hm
        rcases List.mem_append.1 hm with hm | hm
        · exact hc ((List.mem_singleton.1 hm).symm)
        · exact ih (by rw [hps]; exact hm)
      | cons q qs =>
        rw [show consFirst [c] (p :: q :: qs) = ([c] ++ p) :: q :: qs from rfl,
          getLastD_cons_ne_nil _ (by simp) []]
        have := ih
        rw [hps, getLastD_cons_ne_nil _ (by simp) []] at this
        exact this

/-- How line splitting distributes over appending: the last (incomplete)
piece of the left part is glued onto the first piece of the right part. -/
theorem splitNl_append (a b : List Char) :
    splitNl (a ++ b) =
      (splitNl a).dropLast ++
        consFirst ((splitNl a).getLastD []) (splitNl b) := by
  induction a with
  | nil =>
    rw [List.nil_append]
    show splitNl b = [] ++ consFirst [] (splitNl b)
    rw [List.nil_append, consFirst_nil_of_ne_nil (splitNl_ne_nil b)]
  | cons c cs ih =>
    by_cases hc : c = '\n'
    · rw [List.cons_append, splitNl, if_pos hc, ih,
        show splitNl (c :: cs) = [] :: splitNl cs from by
          rw [splitNl, if_pos hc],
        dropLast_cons_ne_nil [] (splitNl_ne_nil cs),
        getLastD_cons_ne_nil [] (splitNl_ne_nil cs) [], List.cons_append]
    · rw [List.cons_append, splitNl, if_neg hc, ih,
        show splitNl (c :: cs) = consFirst [c] (splitNl cs) from by
          rw [splitNl, if_neg hc]]
      obtain ⟨p, ps, hps⟩ := List.exists_cons_of_ne_nil (splitNl_ne_nil cs)
      rw [hps]
      cases ps with
      | nil =>
        obtain ⟨q, qs, hqs⟩ := List.exists_cons_of_ne_nil (splitNl_ne_nil b)
        rw [hqs]
        simp [consFirst, List.append_assoc]
      | cons r rs =>
        have hne : r :: rs ≠ [] := by simp
        rw [show consFirst [c] (p :: r :: rs) = ([c] ++ p) :: r :: rs from rfl,
          dropLast_cons_ne_nil p hne, dropLast_cons_ne_nil ([c] ++ p) hne,
          getLastD_cons_ne_nil p hne [], getLastD_cons_ne_nil ([c] ++ p) hne [],
          List.cons_append, List.cons_append]
        rfl

/-- Invariant of the read loop: starting from any newline-free residual
buffer, after feeding any fragment sequence the emitted lines are all
pieces but the last of the split of everything seen, and the buffer is
that last piece. -/
theorem foldl_feedFragment (frags : List (List Char)) :
    ∀ (ls : List (List Char)) (buf : List Char), '\n' ∉ buf →
      frags.foldl feedFragment (ls, buf) =
        (ls ++ (splitNl (buf ++ frags.flatten)).dropLast,
         (splitNl (buf ++ frags.flatten)).getLastD []) := by
  induction frags with
  | nil =>
    intro ls buf h
    rw [List.foldl_nil, List.flatten_nil, List.append_nil,
      splitNl_no_newline h]
    simp [List.getLastD]
  | cons f fs ih =>
    intro ls buf _
    have hbuf1 : '\n' ∉ (splitNl (buf ++ f)).getLastD [] :=
      no_newline_in_last (buf ++ f)
    rw [List.foldl_cons,
      show feedFragment (ls, buf) f =
        (ls ++ (splitNl (buf ++ f)).dropLast,
         (splitNl (buf ++ f)).getLastD []) from rfl,
      ih _ _ hbuf1, List.flatten_cons,
      ← List.append_assoc buf f fs.flatten,
      splitNl_append (buf ++ f) fs.flatten,
      splitNl_append ((splitNl (buf ++ f)).getLastD []) fs.flatten,
      splitNl_no_newline hbuf1,
      show ([(splitNl (buf ++ f)).getLastD []] :
          List (List Char)).dropLast = [] from rfl,
      show ([(splitNl (buf ++ f)).getLastD []] :
          List (List Char)).getLastD [] =
        (splitNl (buf ++ f)).getLastD [] from rfl,
      List.nil_append,
      List.dropLast_append_of_ne_nil _ (consFirst_ne_nil _ _),
      getLastD_append_ne_nil _ (consFirst_ne_nil _ _) [],
      List.append_assoc]

/-- Closed form of the emitted frames: decode, in order, every complete
line of the concatenated stream text (everything after the last newline —
the final residual buffer — is never decoded). -/
theorem streamFrames_eq_flatten (frags : List (List Char)) :
    streamFrames frags =
      linesToFrames (splitNl frags.flatten).dropLast := by
  unfold streamFrames runFragments
  rw [foldl_feedFragment frags [] [] (by simp)]
  rfl

/-! ## Claims about the frame parser -/

/-- C5: two fragment sequences that reassemble to the same text produce
the same ordered frame sequence, wherever the fragment boundaries fall
(including mid-line splits; mid-character splits are absorbed earlier by
the stateful `TextDecoder`, which is why fragments are character lists
here). -/
theorem streamFrames_fragmentation_invariant (fs1 fs2 : List (List Char))
    (h : fs1.flatten = fs2.flatten) :
    streamFrames fs1 = streamFrames fs2 := by
  rw [streamFrames_eq_flatten, streamFrames_eq_flatten, h]

theorem streamFrames_fragmentation_invariant_witness :
    streamFrames
        ["data: \x7b\"type\":\"chunk\",\"data\":\"Hel".data,
         "lo\"\x7d\ndata: \x7b\"type\":\"done\"\x7d\n".data] =
      streamFrames
        ["data: \x7b\"type\":\"chunk\",\"data\":\"Hello\"\x7d\ndata: \x7b\"type\":\"done\"\x7d\n".data] ∧
    streamFrames
        ["data: \x7b\"type\":\"chunk\",\"data\":\"Hello\"\x7d\ndata: \x7b\"type\":\"done\"\x7d\n".data] =
      [Json.obj [("type".data, Json.str "chunk".data),
                 ("data".data, Json.str "Hello".data)],
       Json.obj [("type".data, Json.str "done".data)]] :=
  ⟨streamFrames_fragmentation_invariant _ _ (by rfl), by rfl⟩

/-- C8: a complete `data: `-prefixed line whose payload `JSON.parse`
rejects is silently dropped — it contributes no frame, does not reach
`onError` (the error callback fires only for transport failures, see
`reportError`), and parsing of the surrounding lines is unaffected. -/
theorem malformed_data_line_discarded (pre post : List (List Char))
    (line : List Char) (h1 : startsWith line dataHeader = true)
    (h2 : jsonParse (line.drop 6) = none) :
    linesToFrames (pre ++ line :: post) = linesToFrames (pre ++ post) := by
  have hdl : decodeLine line = none := by
    rw [decodeLine, if_pos h1]
    exact h2
  unfold linesToFrames
  rw [List.filterMap_append, List.filterMap_append,
    List.filterMap_cons_none hdl]

theorem malformed_data_line_discarded_witness :
    linesToFrames ([] ++ ("data: not-json".data) ::
        ["data: \x7b\"type\":\"done\"\x7d".data]) =
      linesToFrames ([] ++ ["data: \x7b\"type\":\"done\"\x7d".data]) ∧
    linesToFrames ([] ++ ["data: \x7b\"type\":\"done\"\x7d".data]) =
      [Json.obj [("type".data, Json.str "done".data)]] :=
  ⟨malformed_data_line_discarded [] ["data: \x7b\"type\":\"done\"\x7d".data]
      ("data: not-json".data) (by rfl) (by rfl),
   by rfl⟩

/-- C10: when the stream text ends with a piece not terminated by a
newline, that trailing piece stays in the residual buffer and never
becomes a frame — in particular a final `data: ...done...` line without a
trailing newline yields no frame at all. -/
theorem trailing_buffer_discarded (fs : List (List Char)) (t : List Char)
    (h : '\n' ∉ t) :
    streamFrames (fs ++ [t]) = streamFrames fs := by
  rw [streamFrames_eq_flatten, streamFrames_eq_flatten,
    List.flatten_append, List.flatten_cons, List.flatten_nil,
    List.append_nil, splitNl_append fs.flatten t, splitNl_no_newline h,
    show consFirst ((splitNl fs.flatten).getLastD []) [t] =
      [(splitNl fs.flatten).getLastD [] ++ t] from rfl,
    List.dropLast_concat]

theorem trailing_buffer_discarded_witness :
    streamFrames ([] ++ ["data: \x7b\"type\":\"done\"\x7d".data]) =
      streamFrames [] ∧
    streamFrames [] = [] ∧
    streamFrames ["data: \x7b\"type\":\"done\"\x7d".data] = [] :=
  ⟨trailing_buffer_discarded [] ("data: \x7b\"type\":\"done\"\x7d".data)
      (by decide), rfl, by rfl⟩

end LearningChatbot
